import Mathlib

/-!
Shallow embedding of the first-party logic of the repository:
the query-recency enhancer `enhance_query_with_recency` and the
search-result formatter `SearchTool._format_results` from `main.py`,
the search tool entry points `SearchTool._run` / `SearchTool._arun`,
and the `POST /chat` handlers from `main.py` (FastAPI) and `app.py` (Flask).

Python strings become Lean `String` (with the character-level operations
spelled out on `List Char`); `datetime.now()` becomes an explicit
`CivilDate` parameter; exceptions raised by external calls become
`Except String`.
-/

/-- The whitespace characters stripped by Python `str.strip()` (ASCII range). -/
def isPyWs (c : Char) : Bool :=
  c = ' ' || c = '\t' || c = '\n' || c = '\r' || c = '\x0b' || c = '\x0c'

/-- Python `str.strip()` on a character list: drop whitespace from both ends. -/
def stripL (cs : List Char) : List Char :=
  ((cs.dropWhile isPyWs).reverse.dropWhile isPyWs).reverse

/-- Python `str.strip()`. -/
def pyStrip (s : String) : String :=
  String.mk (stripL s.data)

/-- Python `str.lower()` (ASCII model, matching `Char.toLower`). -/
def pyLower (s : String) : String :=
  String.mk (s.data.map Char.toLower)

/-- Python's substring test `pat in s`. -/
def pyIn (pat s : String) : Bool :=
  decide (pat.data <:+: s.data)

/-- A calendar date, as carried by Python `datetime` (proleptic Gregorian). -/
structure CivilDate where
  year : Nat
  month : Nat
  day : Nat
deriving DecidableEq

/-- Gregorian leap-year rule. -/
def isLeapYear (y : Nat) : Bool :=
  (y % 4 = 0 && y % 100 ≠ 0) || y % 400 = 0

/-- Number of days in a month of a given year. -/
def daysInMonth (y m : Nat) : Nat :=
  if m = 2 then (if isLeapYear y then 29 else 28)
  else if m = 4 || m = 6 || m = 9 || m = 11 then 30
  else 31

/-- The previous calendar day. -/
def prevDay : CivilDate → CivilDate
  | ⟨y, m, d⟩ =>
    if 1 < d then ⟨y, m, d - 1⟩
    else if 1 < m then ⟨y, m - 1, daysInMonth y (m - 1)⟩
    else ⟨y - 1, 12, 31⟩

/-- Python `datetime - timedelta(days=n)`, date part, for a valid date. -/
def minusDays : Nat → CivilDate → CivilDate
  | 0, d => d
  | n + 1, d => minusDays n (prevDay d)

/-- Left-pad a number with zeros to the given width. -/
def padZero (w n : Nat) : String :=
  String.mk (List.replicate (w - (Nat.repr n).length) '0') ++ Nat.repr n

/-- Python `strftime("%Y-%m-%d")`. -/
def fmtYMD (d : CivilDate) : String :=
  padZero 4 d.year ++ "-" ++ padZero 2 d.month ++ "-" ++ padZero 2 d.day

/-- The fixed time-sensitive keyword list of `enhance_query_with_recency`. -/
def timeKeywords : List String :=
  ["today", "now", "latest", "recent", "current", "news", "update",
   "happened", "happening", "score", "price", "weather", "stock"]

/-- `enhance_query_with_recency` from `main.py`, with the current date passed
    explicitly in place of `datetime.now()`. -/
def enhance_query_with_recency (now : CivilDate) (query : String) : String :=
  let lowerQuery := pyLower query
  if timeKeywords.any (fun k => pyIn k lowerQuery) then
    query ++ " after:" ++ fmtYMD (minusDays 7 now)
  else
    query

/-- Python `str.split("\n")`: split on newlines, keeping empty pieces
    (the result is never empty). -/
def splitLinesL : List Char → List (List Char)
  | [] => [[]]
  | c :: cs =>
    if c = '\n' then [] :: splitLinesL cs
    else
      match splitLinesL cs with
      | [] => [[c]]
      | p :: ps => (c :: p) :: ps

/-- Split a character list at its first `]`, if any. -/
def splitOnceBracket : List Char → Option (List Char × List Char)
  | [] => none
  | c :: cs =>
    if c = ']' then some ([], cs)
    else
      match splitOnceBracket cs with
      | none => none
      | some (a, b) => some (c :: a, b)

/-- Python `str.split("]", 2)`: at most two splits, hence one to three parts. -/
def splitBracketMax2 (cs : List Char) : List (List Char) :=
  match splitOnceBracket cs with
  | none => [cs]
  | some (a, r) =>
    match splitOnceBracket r with
    | none => [a, r]
    | some (b, r2) => [a, b, r2]

/-- Python `"\n".join(pieces)` on character lists. -/
def joinNL : List (List Char) → List Char
  | [] => []
  | [p] => p
  | p :: ps => p ++ '\n' :: joinNL ps

/-- One iteration of the result loop in `SearchTool._format_results`: the
    (zero or one) formatted lines appended for raw line `result` numbered `i`.
    `parts = result.split("]", 2)`; fewer than three parts fall back to the
    verbatim line; otherwise the leading `[` of the title is dropped and the
    snippet is stripped. -/
def formatEntry (i : Nat) (result : List Char) : List (List Char) :=
  if stripL result = [] then []
  else
    let parts := splitBracketMax2 result
    if parts.length < 3 then
      [(Nat.repr i).data ++ ". ".data ++ result ++ ['\n']]
    else
      [(Nat.repr i).data ++ ". ".data ++ (parts[0]!).drop 1 ++ "\n   Link: ".data
        ++ parts[1]! ++ "\n   ".data ++ stripL (parts[2]!) ++ ['\n']]

/-- The numbered entry lines of `SearchTool._format_results`: the loop runs
    over the first six raw lines (`results.split("\n")[:6]`), numbering from 1. -/
def formatEntries (results : List Char) : List (List Char) :=
  (List.enumFrom 1 ((splitLinesL results).take 6)).flatMap
    (fun p => formatEntry p.1 p.2)

/-- The numbered entry lines, as strings. -/
def format_entries (results : String) : List String :=
  (formatEntries results.data).map String.mk

/-- `SearchTool._format_results` from `main.py`. -/
def format_results (results : String) : String :=
  if stripL results.data = [] then "No results found."
  else String.mk (joinNL ("Latest web results:\n".data :: formatEntries results.data))

/-- `SearchTool._run` from `main.py`. The search backend is passed explicitly;
    `Except.error e` models the backend call raising an exception whose text
    is `e`, caught by the handler's `except` clause. -/
def SearchTool_run (searchBackend : String → Except String String)
    (now : CivilDate) (query : String) : String :=
  match searchBackend (enhance_query_with_recency now query) with
  | Except.ok results => format_results results
  | Except.error e => "Search failed: " ++ e

/-- `SearchTool._arun` from `main.py`: identical logic to `SearchTool._run`
    through the asynchronous backend call. -/
def SearchTool_arun (searchBackend : String → Except String String)
    (now : CivilDate) (query : String) : String :=
  match searchBackend (enhance_query_with_recency now query) with
  | Except.ok results => format_results results
  | Except.error e => "Search failed: " ++ e

/-- A chat message as returned by the agent framework (only `content` is read). -/
structure Message where
  content : String
deriving DecidableEq

/-- The JSON body of a `/chat` response: an error payload or a success payload. -/
inductive RespBody where
  | err (msg : String)
  | ok (response : String) (thread_id : String)
deriving DecidableEq

/-- Outcome of one `/chat` request: HTTP status code, response body, and
    whether the agent executor was invoked while handling it. -/
structure ChatOutcome where
  status : Nat
  body : RespBody
  agentInvoked : Bool
deriving DecidableEq

/-- The agent executor: receives the query and the configured thread id and
    returns the final message list, or raises (`Except.error`). -/
def Agent : Type :=
  String → String → Except String (List Message)

/-- The `/chat` handler from `app.py` (Flask). `query?` and `threadId?` are the
    optional JSON body fields. `messages[-1]` on an empty list raises
    `IndexError("list index out of range")`, caught by the broad `except` and
    surfaced as a 500. -/
def flask_chat (agent : Agent) (query? : Option String)
    (threadId? : Option String) : ChatOutcome :=
  let thread_id := threadId?.getD "default_thread"
  match query? with
  | none => ⟨400, RespBody.err "No query provided", false⟩
  | some q =>
    if q = "" then ⟨400, RespBody.err "No query provided", false⟩
    else
      match agent (pyStrip q) thread_id with
      | Except.error e => ⟨500, RespBody.err e, true⟩
      | Except.ok msgs =>
        match msgs.getLast? with
        | none => ⟨500, RespBody.err "list index out of range", true⟩
        | some m => ⟨200, RespBody.ok m.content thread_id, true⟩

/-- `ChatRequest` from `main.py`. -/
structure ChatRequest where
  query : String
  thread_id : String
deriving DecidableEq

/-- Request-body validation for `main.py`: `query` is a required field (a body
    without it is rejected by validation before the handler runs, so the agent
    is never invoked), and `thread_id` defaults to `"default_thread"`. -/
def parseChatRequest (query? : Option String)
    (threadId? : Option String) : Option ChatRequest :=
  match query? with
  | none => none
  | some q => some ⟨q, threadId?.getD "default_thread"⟩

/-- The `/chat` handler from `main.py` (FastAPI), on a validated request. -/
def fastapi_chat (agent : Agent) (req : ChatRequest) : ChatOutcome :=
  let query := pyStrip req.query
  if query = "" then ⟨400, RespBody.err "No query provided", false⟩
  else
    match agent query req.thread_id with
    | Except.error e => ⟨500, RespBody.err e, true⟩
    | Except.ok msgs =>
      match msgs.getLast? with
      | none => ⟨500, RespBody.err "list index out of range", true⟩
      | some m => ⟨200, RespBody.ok m.content req.thread_id, true⟩

/-- Claim C1: a query containing (case-insensitively) a time-sensitive keyword
    is returned with its casing preserved and a date-filter clause appended,
    the date being now minus seven days in `YYYY-MM-DD` form; the result is a
    strict extension of the input. -/
theorem enhance_recency_appends_date_filter (now : CivilDate) (query : String)
    (h : ∃ k ∈ timeKeywords, pyIn k (pyLower query) = true) :
    enhance_query_with_recency now query
      = query ++ " after:" ++ fmtYMD (minusDays 7 now)
    ∧ enhance_query_with_recency now query ≠ query := by
  have hany : timeKeywords.any (fun k => pyIn k (pyLower query)) = true :=
    List.any_eq_true.mpr h
  have heq : enhance_query_with_recency now query
      = query ++ " after:" ++ fmtYMD (minusDays 7 now) := by
    simp [enhance_query_with_recency, hany]
  refine ⟨heq, ?_⟩
  rw [heq]
  intro hcontra
  have hlen := congrArg String.length hcontra
  rw [String.length_append, String.length_append] at hlen
  have h7 : (" after:" : String).length = 7 := by decide
  omega

/-- Witness for claim C1 at a concrete date and query. -/
theorem enhance_recency_appends_date_filter_witness :
    enhance_query_with_recency ⟨2026, 10, 12⟩ "Latest AI news"
      = "Latest AI news after:2026-10-05"
    ∧ enhance_query_with_recency ⟨2026, 10, 12⟩ "Latest AI news"
      ≠ "Latest AI news" := by
  have h := enhance_recency_appends_date_filter ⟨2026, 10, 12⟩ "Latest AI news"
    ⟨"latest", by decide, by decide⟩
  exact ⟨h.1.trans (by decide), h.2⟩

/-- Claim C2: a query containing no time-sensitive keyword is returned
    unchanged; the enhancer is a total function on strings. -/
theorem enhance_recency_identity (now : CivilDate) (query : String)
    (h : ∀ k ∈ timeKeywords, pyIn k (pyLower query) = false) :
    enhance_query_with_recency now query = query := by
  have hany : timeKeywords.any (fun k => pyIn k (pyLower query)) = false := by
    rw [List.any_eq_false]
    intro k hk
    simp [h k hk]
  simp [enhance_query_with_recency, hany]

/-- Witness for claim C2 at a concrete date and query. -/
theorem enhance_recency_identity_witness :
    enhance_query_with_recency ⟨2026, 10, 12⟩ "hello world" = "hello world" :=
  enhance_recency_identity ⟨2026, 10, 12⟩ "hello world" (by decide)

/-- Stripping yields the empty list exactly when every character is whitespace. -/
theorem stripL_eq_nil_iff {cs : List Char} :
    stripL cs = [] ↔ ∀ c ∈ cs, isPyWs c = true := by
  unfold stripL
  rw [List.reverse_eq_nil_iff, List.dropWhile_eq_nil_iff]
  simp only [List.mem_reverse]
  constructor
  · intro h c hc
    have hsplit : cs.takeWhile isPyWs ++ cs.dropWhile isPyWs = cs :=
      List.takeWhile_append_dropWhile isPyWs cs
    rw [← hsplit] at hc
    rcases List.mem_append.mp hc with h1 | h1
    · exact List.mem_takeWhile_imp h1
    · exact h c h1
  · intro h c hc
    rw [List.dropWhile_eq_nil_iff.mpr h] at hc
    simp at hc

/-- Every character of a piece of the line split occurs in the original list. -/
theorem mem_of_mem_splitLinesL :
    ∀ (cs : List Char) (p : List Char), p ∈ splitLinesL cs → ∀ c ∈ p, c ∈ cs := by
  intro cs
  induction cs with
  | nil =>
    intro p hp c hc
    simp [splitLinesL] at hp
    subst hp
    simp at hc
  | cons a t ih =>
    intro p hp c hc
    simp only [splitLinesL] at hp
    split at hp
    · rcases List.mem_cons.mp hp with h1 | h1
      · subst h1
        simp at hc
      · exact List.mem_cons_of_mem _ (ih p h1 c hc)
    · split at hp
      · rename_i hst
        simp at hp
        subst hp
        simp at hc
        simp [hc]
      · rename_i hst
        rcases List.mem_cons.mp hp with h1 | h1
        · subst h1
          rcases List.mem_cons.mp hc with h2 | h2
          · simp [h2]
          · refine List.mem_cons_of_mem _ (ih _ ?_ c h2)
            rw [hst]
            exact List.mem_cons_self _ _
        · refine List.mem_cons_of_mem _ (ih p ?_ c hc)
          rw [hst]
          exact List.mem_cons_of_mem _ h1

/-- Every piece passed to the join is an infix of the joined result. -/
theorem joinNL_infix_of_mem (x : List Char) :
    ∀ l : List (List Char), x ∈ l → x <:+: joinNL l := by
  intro l
  induction l with
  | nil =>
    intro hx
    simp at hx
  | cons a rest ih =>
    intro hx
    cases rest with
    | nil =>
      simp at hx
      subst hx
      exact List.infix_refl x
    | cons b tl =>
      rcases List.mem_cons.mp hx with h1 | h1
      · subst h1
        show ∃ u v, u ++ x ++ v = joinNL (x :: b :: tl)
        exact ⟨[], '\n' :: joinNL (b :: tl), by simp [joinNL]⟩
      · obtain ⟨u, v, huv⟩ := ih h1
        show ∃ u v, u ++ x ++ v = joinNL (a :: b :: tl)
        refine ⟨a ++ '\n' :: u, v, ?_⟩
        simp only [joinNL]
        rw [← huv]
        simp

/-- Each iteration of the result loop appends at most one line. -/
theorem formatEntry_length_le (i : Nat) (result : List Char) :
    (formatEntry i result).length ≤ 1 := by
  unfold formatEntry
  split
  · simp
  · dsimp only
    split
    · simp
    · simp

/-- A flat map whose pieces have at most one element does not grow the list. -/
theorem length_flatMap_le_of_le_one {α β : Type} (l : List α) (f : α → List β)
    (hf : ∀ a, (f a).length ≤ 1) : (l.flatMap f).length ≤ l.length := by
  induction l with
  | nil => simp
  | cons a t ih =>
    simp only [List.flatMap_cons, List.length_append, List.length_cons]
    have := hf a
    omega

set_option maxRecDepth 20000 in
/-- Claim C3 (counterexample): on the spec's example input the rendered link
    field of the first entry is not `http://x`, and that of the second is not
    `http://y`: no `Link:` line of the output ends right after the claimed url. -/
theorem format_results_c3_counterexample :
    ¬ ("Link: http://x\n".data <:+:
        (format_results "[Title]http://x[snippet]\n[Title2]http://y[snippet2]").data)
    ∧ ¬ ("Link: http://y\n".data <:+:
        (format_results "[Title]http://x[snippet]\n[Title2]http://y[snippet2]").data) := by
  constructor <;> decide

/-- Claim C3 (amended): the formatter lists both entries with titles `Title`
    and `Title2` and ordinals 1 and 2, but each entry's link field carries the
    snippet's opening bracket and text (`http://x[snippet`, `http://y[snippet2`)
    and the snippet field is empty, because the trailing `]` of each entry is
    consumed as the second split delimiter. -/
theorem format_results_c3_amended :
    format_results "[Title]http://x[snippet]\n[Title2]http://y[snippet2]"
      = "Latest web results:\n\n1. Title\n   Link: http://x[snippet\n   \n\n2. Title2\n   Link: http://y[snippet2\n   \n" := by
  decide

/-- Claim C4: however many non-empty newline-separated entries the input has
    (in particular more than six), at most six numbered items are produced. -/
theorem format_entries_at_most_six (s : String)
    (h : 6 < (splitLinesL s.data).countP (fun l => !l.isEmpty)) :
    (format_entries s).length ≤ 6 := by
  unfold format_entries formatEntries
  rw [List.length_map]
  have hb := length_flatMap_le_of_le_one
      (List.enumFrom 1 ((splitLinesL s.data).take 6))
      (fun p => formatEntry p.1 p.2)
      (fun p => formatEntry_length_le p.1 p.2)
  have ht : (List.enumFrom 1 ((splitLinesL s.data).take 6)).length ≤ 6 := by
    rw [List.enumFrom_length, List.length_take]
    exact min_le_left _ _
  omega

/-- Witness for claim C4 on an input with seven non-empty entries. -/
theorem format_entries_at_most_six_witness :
    6 < (splitLinesL ("a\nb\nc\nd\ne\nf\ng").data).countP (fun l => !l.isEmpty)
    ∧ (format_entries "a\nb\nc\nd\ne\nf\ng").length ≤ 6 :=
  ⟨by decide, format_entries_at_most_six "a\nb\nc\nd\ne\nf\ng" (by decide)⟩

/-- Claim C5: a non-blank line among the first six raw lines that splits on `]`
    into fewer than three parts is included verbatim in the output,
    prefixed with its 1-based ordinal (the formatter itself is a total
    function, so it never raises). -/
theorem format_results_malformed_verbatim (s : String) (i : Nat) (line : List Char)
    (hi : i < ((splitLinesL s.data).take 6).length)
    (hline : ((splitLinesL s.data).take 6)[i] = line)
    (hnb : stripL line ≠ [])
    (hparts : (splitBracketMax2 line).length < 3) :
    ((Nat.repr (i + 1)).data ++ ". ".data ++ line ++ ['\n'])
      <:+: (format_results s).data := by
  have hentry : formatEntry (1 + i) line
      = [(Nat.repr (1 + i)).data ++ ". ".data ++ line ++ ['\n']] := by
    simp [formatEntry, hnb, hparts]
  have hlen2 : i < (List.enumFrom 1 ((splitLinesL s.data).take 6)).length := by
    rw [List.enumFrom_length]
    exact hi
  have hmem : ((Nat.repr (i + 1)).data ++ ". ".data ++ line ++ ['\n'])
      ∈ formatEntries s.data := by
    apply List.mem_flatMap.mpr
    refine ⟨(1 + i, line), ?_, ?_⟩
    · have hg : (List.enumFrom 1 ((splitLinesL s.data).take 6))[i] = (1 + i, line) := by
        rw [List.getElem_enumFrom, hline]
      rw [← hg]
      exact List.getElem_mem hlen2
    · rw [hentry, Nat.add_comm 1 i]
      exact List.mem_singleton.mpr rfl
  have hs : stripL s.data ≠ [] := by
    intro hws
    apply hnb
    rw [stripL_eq_nil_iff] at hws ⊢
    intro c hc
    apply hws
    have hmemline : line ∈ (splitLinesL s.data).take 6 := by
      rw [← hline]
      exact List.getElem_mem hi
    exact mem_of_mem_splitLinesL s.data line (List.mem_of_mem_take hmemline) c hc
  unfold format_results
  rw [if_neg hs]
  show _ <:+: joinNL ("Latest web results:\n".data :: formatEntries s.data)
  exact joinNL_infix_of_mem _ _ (List.mem_cons_of_mem _ hmem)

/-- Witness for claim C5 on a malformed single-entry input. -/
theorem format_results_malformed_verbatim_witness :
    ("1. malformed entry\n".data) <:+: (format_results "malformed entry").data := by
  have h := format_results_malformed_verbatim "malformed entry" 0
      ("malformed entry".data) (by decide) (by decide) (by decide) (by decide)
  have e : ("1. malformed entry\n").data
      = (Nat.repr (0 + 1)).data ++ ". ".data ++ ("malformed entry").data ++ ['\n'] := by
    decide
  rw [e]
  exact h

/-- Claim C6: an input that is empty or consists only of whitespace makes the
    formatter return exactly the literal `"No results found."`. -/
theorem format_results_whitespace_only (s : String)
    (h : ∀ c ∈ s.data, isPyWs c = true) :
    format_results s = "No results found." := by
  have hnil : stripL s.data = [] := stripL_eq_nil_iff.mpr h
  unfold format_results
  rw [if_pos hnil]

/-- Witness for claim C6 on the empty input and a whitespace-only input. -/
theorem format_results_whitespace_only_witness :
    format_results "" = "No results found."
    ∧ format_results " \t\n " = "No results found." :=
  ⟨format_results_whitespace_only "" (by decide),
   format_results_whitespace_only " \t\n " (by decide)⟩

/-- Claim C7: a `/chat` request with an empty or missing query is answered
    with HTTP 400 and an error payload, and the agent executor is not invoked
    (in the FastAPI variant a missing required `query` is rejected at request
    validation, so the handler — and hence the agent — is never reached). -/
theorem chat_empty_query_400 (agent : Agent) (threadId? : Option String) (tid : String) :
    flask_chat agent none threadId? = ⟨400, RespBody.err "No query provided", false⟩
    ∧ flask_chat agent (some "") threadId? = ⟨400, RespBody.err "No query provided", false⟩
    ∧ parseChatRequest none threadId? = none
    ∧ fastapi_chat agent ⟨"", tid⟩ = ⟨400, RespBody.err "No query provided", false⟩ :=
  ⟨rfl, rfl, rfl, rfl⟩

/-- Claim C8 (counterexample): the query `" "` is a non-empty string and the
    agent returns a message list, yet the FastAPI `/chat` handler answers 400,
    not 200, without invoking the agent. -/
theorem chat_success_counterexample :
    (" " : String) ≠ ""
    ∧ (fastapi_chat (fun _ _ => Except.ok [⟨"Hello there!"⟩])
        ⟨" ", "default_thread"⟩).status ≠ 200
    ∧ fastapi_chat (fun _ _ => Except.ok [⟨"Hello there!"⟩]) ⟨" ", "default_thread"⟩
        = ⟨400, RespBody.err "No query provided", false⟩ :=
  ⟨by decide, by decide, by decide⟩

/-- Claim C8 (amended): for a query containing at least one non-whitespace
    character, an agent whose invocation returns a non-empty message list makes
    `/chat` answer HTTP 200 with the content of the last returned message and
    the client-supplied thread id — defaulted to `"default_thread"` by request
    parsing when none is supplied — in both the FastAPI and Flask variants. -/
theorem chat_success_200 (agent : Agent) (q : String) (threadId? : Option String)
    (msgs : List Message) (m : Message)
    (hq : pyStrip q ≠ "")
    (ha : agent (pyStrip q) (threadId?.getD "default_thread") = Except.ok msgs)
    (hm : msgs.getLast? = some m) :
    parseChatRequest (some q) threadId? = some ⟨q, threadId?.getD "default_thread"⟩
    ∧ fastapi_chat agent ⟨q, threadId?.getD "default_thread"⟩
        = ⟨200, RespBody.ok m.content (threadId?.getD "default_thread"), true⟩
    ∧ flask_chat agent (some q) threadId?
        = ⟨200, RespBody.ok m.content (threadId?.getD "default_thread"), true⟩ := by
  have hq' : q ≠ "" := by
    intro he
    apply hq
    rw [he]
    rfl
  refine ⟨rfl, ?_, ?_⟩
  · simp [fastapi_chat, hq, ha, hm]
  · simp [flask_chat, hq', ha, hm]

/-- Witness for claim C8, mirroring the repository's own mocked-agent test. -/
theorem chat_success_200_witness :
    parseChatRequest (some "Hello") none = some ⟨"Hello", "default_thread"⟩
    ∧ fastapi_chat (fun _ _ => Except.ok [⟨"Hello there!"⟩]) ⟨"Hello", "default_thread"⟩
        = ⟨200, RespBody.ok "Hello there!" "default_thread", true⟩
    ∧ flask_chat (fun _ _ => Except.ok [⟨"Hello there!"⟩]) (some "Hello") none
        = ⟨200, RespBody.ok "Hello there!" "default_thread", true⟩ :=
  chat_success_200 (fun _ _ => Except.ok [⟨"Hello there!"⟩]) "Hello" none
    [⟨"Hello there!"⟩] ⟨"Hello there!"⟩ (by decide) rfl rfl

/-- Claim C9: the search tool returns a string on every input and never
    raises: if the backend call raises, both the sync and async variants return
    the exception text prefixed with `"Search failed: "`; if it succeeds, both
    return the formatted results. -/
theorem search_tool_never_raises (searchBackend : String → Except String String)
    (now : CivilDate) (query : String) :
    (∀ e, searchBackend (enhance_query_with_recency now query) = Except.error e →
        SearchTool_run searchBackend now query = "Search failed: " ++ e
        ∧ SearchTool_arun searchBackend now query = "Search failed: " ++ e)
    ∧ (∀ r, searchBackend (enhance_query_with_recency now query) = Except.ok r →
        SearchTool_run searchBackend now query = format_results r
        ∧ SearchTool_arun searchBackend now query = format_results r) := by
  constructor
  · intro e he
    constructor
    · simp [SearchTool_run, he]
    · simp [SearchTool_arun, he]
  · intro r hr
    constructor
    · simp [SearchTool_run, hr]
    · simp [SearchTool_arun, hr]

/-- Witness for claim C9 with a raising backend and with a succeeding backend. -/
theorem search_tool_never_raises_witness :
    SearchTool_run (fun _ => Except.error "connection reset") ⟨2026, 10, 12⟩ "latest news"
      = "Search failed: connection reset"
    ∧ SearchTool_arun (fun _ => Except.error "connection reset") ⟨2026, 10, 12⟩ "latest news"
      = "Search failed: connection reset"
    ∧ SearchTool_run (fun _ => Except.ok "") ⟨2026, 10, 12⟩ "latest news"
      = format_results "" :=
  ⟨((search_tool_never_raises (fun _ => Except.error "connection reset")
      ⟨2026, 10, 12⟩ "latest news").1 "connection reset" rfl).1,
   ((search_tool_never_raises (fun _ => Except.error "connection reset")
      ⟨2026, 10, 12⟩ "latest news").1 "connection reset" rfl).2,
   ((search_tool_never_raises (fun _ => Except.ok "")
      ⟨2026, 10, 12⟩ "latest news").2 "" rfl).1⟩

/-- Claim C10: non-blank input yields an output that begins with the fixed
    header, and the six-entry cap and the ordinals are applied to the raw lines
    before blank lines are skipped: six leading blank lines exhaust the cap
    (header alone, no numbered items, not `"No results found."`), and a single
    leading blank line shifts the first ordinal to 2. -/
theorem format_results_cap_before_blank_skip (s : String) (h : stripL s.data ≠ []) :
    "Latest web results:\n".data <+: (format_results s).data
    ∧ format_results "\n\n\n\n\n\nContent" = "Latest web results:\n"
    ∧ format_results "\nA" = "Latest web results:\n\n2. A\n" := by
  refine ⟨?_, by decide, by decide⟩
  unfold format_results
  rw [if_neg h]
  show "Latest web results:\n".data
    <+: joinNL ("Latest web results:\n".data :: formatEntries s.data)
  cases hE : formatEntries s.data with
  | nil =>
    show ∃ u, "Latest web results:\n".data ++ u = joinNL ["Latest web results:\n".data]
    exact ⟨[], by simp [joinNL]⟩
  | cons a t =>
    show ∃ u, "Latest web results:\n".data ++ u
      = joinNL ("Latest web results:\n".data :: a :: t)
    exact ⟨'\n' :: joinNL (a :: t), by simp [joinNL]⟩

/-- Witness for claim C10 at a concrete non-blank input. -/
theorem format_results_cap_before_blank_skip_witness :
    "Latest web results:\n".data <+: (format_results "hello").data
    ∧ format_results "\n\n\n\n\n\nContent" = "Latest web results:\n"
    ∧ format_results "\nA" = "Latest web results:\n\n2. A\n" :=
  format_results_cap_before_blank_skip "hello" (by decide)
